import Mathlib

/-!
Verification of the pin-set engine specified for `js-ipfs`'s `pin.ls`
conformance suite (`src/packages/interface-ipfs-core/src/pin/ls.js`).

The repository ships only the conformance tests; the pin-set engine itself
(Pin Set Store, Pin Resolver, Pin Query Engine) is described by the
specification. The definitions below are therefore modelled from the spec:
CIDs are opaque comparable keys (here `Nat`), the DAG is a child-link
enumeration in which links always point to strictly smaller CIDs (every
finite acyclic content-addressed graph admits such a topological
numbering), and the query engine follows the spec's validation, closure,
precedence and error rules.
-/

deriving instance DecidableEq for Except

namespace PinLs

/-- Modelled from the spec: the CID Graph Accessor (absent from the
repository, which contains only the conformance tests). `children` is the
child-link enumeration `children_of(cid) -> sequence of (name, cid)`;
`child_lt` expresses that the graph is a finite DAG, by fixing a
topological numbering of the CIDs. -/
structure DAG where
  children : Nat → List (String × Nat)
  child_lt : ∀ n p, p ∈ children n → p.2 < n

/-- Modelled from the spec: one step-bounded reachability traversal with
duplicate suppression. `closureAux g fuel n` collects, for each child `c`
of `n`, the CID `c` and everything reachable from `c` within `fuel`
further steps, deduplicated. -/
def closureAux (g : Nat → List (String × Nat)) : Nat → Nat → List Nat
  | 0, _ => []
  | fuel + 1, n =>
      (((g n).map Prod.snd).flatMap (fun c => c :: closureAux g fuel c)).dedup

/-- Modelled from the spec: the Pin Resolver's `closure_of(root_cid)` (absent
from the repository). Every CID strictly reachable from `n`, each at most
once. Because child links strictly decrease the CID, a fuel of `n` bounds
the length of every link chain out of `n`, so the traversal is complete. -/
def closureList (g : DAG) (n : Nat) : List Nat :=
  closureAux g.children n n

/-- Modelled from the spec: a Pin Record's mode, Direct or Recursive. -/
inductive PinMode where
  | direct
  | recursive
deriving DecidableEq

/-- Modelled from the spec: a Pin Record persisted per explicitly-pinned
CID: `cid`, `mode`, optional `comment`. -/
structure PinRecord where
  cid : Nat
  mode : PinMode
  comment : Option String
deriving DecidableEq

/-- Modelled from the spec: a query result's classification — Direct,
Recursive, Indirect or "indirect through an ancestor". The comment rides
on the explicit classifications only. -/
inductive Classification where
  | direct (comment : Option String)
  | recursive (comment : Option String)
  | indirect (through : Option Nat)
deriving DecidableEq

/-- Modelled from the spec: a Pin Entry as surfaced to the caller:
`cid`, the classification string `type`, and the optional `comment`. -/
structure PinEntry where
  cid : Nat
  type : String
  comment : Option String
deriving DecidableEq

/-- Modelled from the spec: the validated type filter. -/
inductive PinType where
  | direct
  | recursive
  | indirect
  | all
deriving DecidableEq

/-- Modelled from the spec: the raw `type` option as received from the
dynamically-typed caller: absent, a string, or a non-string value such as
the number 6. -/
inductive TypeOpt where
  | missing
  | str (s : String)
  | num (n : Int)
deriving DecidableEq

/-- Modelled from the spec: the error taxonomy of the read path. -/
inductive PinError where
  | invalidTypeFilter
  | notPinned (path : String)
  | noSuchLink (name : String) (under : Nat)
deriving DecidableEq

/-- Modelled from the spec: the literal message forms the ecosystem relies
on: `path '<path>' is not pinned` and `no link named "<name>" under <cid>`. -/
def errorMessage : PinError → String
  | .invalidTypeFilter => "invalid type"
  | .notPinned p => "path '" ++ p ++ "' is not pinned"
  | .noSuchLink name under => "no link named \"" ++ name ++ "\" under " ++ toString under

/-- Modelled from the spec: boundary validation of the type filter: exact
string match against the four recognized strings, anything else (numbers,
reserved-looking strings) is `InvalidTypeFilter`; an absent filter behaves
as "all". -/
def parseTypeFilter : TypeOpt → Except PinError PinType
  | .missing => .ok .all
  | .num _ => .error .invalidTypeFilter
  | .str s =>
      if s = "direct" then .ok .direct
      else if s = "recursive" then .ok .recursive
      else if s = "indirect" then .ok .indirect
      else if s = "all" then .ok .all
      else .error .invalidTypeFilter

/-- Modelled from the spec: the Pin Set Store read primitive `get(cid)`,
with the read-path precedence Recursive > Direct should duplicate records
somehow coexist. -/
def findRecord (store : List PinRecord) (c : Nat) : Option PinRecord :=
  match store.find? (fun r => decide (r.cid = c ∧ r.mode = PinMode.recursive)) with
  | some r => some r
  | none => store.find? (fun r => decide (r.cid = c))

/-- Modelled from the spec: the CIDs of all Recursive Pin Records. -/
def recursiveRoots (store : List PinRecord) : List Nat :=
  (store.filter (fun r => decide (r.mode = PinMode.recursive))).map PinRecord.cid

/-- Modelled from the spec: whether `c` is reachable from some recursive
root's closure. -/
def isIndirect (store : List PinRecord) (g : DAG) (c : Nat) : Bool :=
  (recursiveRoots store).any (fun r => (closureList g r).contains c)

/-- Modelled from the spec: the indirect portion of an unscoped listing:
the union of all recursive roots' closures, deduplicated, minus every CID
holding its own explicit record (explicit precedence). -/
def indirectCids (store : List PinRecord) (g : DAG) : List Nat :=
  (((recursiveRoots store).flatMap (fun r => closureList g r)).dedup).filter
    (fun c => (findRecord store c).isNone)

/-- Modelled from the spec: the classification an explicit record induces. -/
def recordClass (r : PinRecord) : Classification :=
  match r.mode with
  | .direct => .direct r.comment
  | .recursive => .recursive r.comment

/-- Modelled from the spec: the classification string of an entry. -/
def classStr : Classification → String
  | .direct _ => "direct"
  | .recursive _ => "recursive"
  | .indirect none => "indirect"
  | .indirect (some a) => "indirect through " ++ toString a

/-- Modelled from the spec: the comment carried by an entry: only Direct
and Recursive classifications carry one. -/
def classComment : Classification → Option String
  | .direct c => c
  | .recursive c => c
  | .indirect _ => none

/-- Modelled from the spec: building the `\x7b cid, type, comment? \x7d`
result shape. -/
def renderEntry (c : Nat) (cl : Classification) : PinEntry :=
  ⟨c, classStr cl, classComment cl⟩

/-- Modelled from the spec: whether a classification passes the validated
type filter ("all" passes everything; qualified indirect is still
indirect). -/
def clMatches : PinType → Classification → Bool
  | .all, _ => true
  | .direct, .direct _ => true
  | .recursive, .recursive _ => true
  | .indirect, .indirect _ => true
  | _, _ => false

/-- Modelled from the spec: the scoped-lookup classification of a resolved
CID: explicit record first (winning precedence), else indirect when some
recursive root reaches it — qualified by the path's root `throughRoot`
when the target was a path —, else unpinned (`none`). -/
def classifyCid (store : List PinRecord) (g : DAG) (throughRoot : Option Nat)
    (c : Nat) : Option Classification :=
  match findRecord store c with
  | some r => some (recordClass r)
  | none =>
      if isIndirect store g c then some (.indirect throughRoot) else none

/-- Modelled from the spec: a path `/ipfs/<root-cid>/seg1/.../segk` already
split into its root CID and its named segments. -/
structure IPFSPath where
  root : Nat
  segs : List String
deriving DecidableEq

/-- Modelled from the spec: the textual form of a path, used verbatim in
the `NotPinned` message. -/
def pathString (p : IPFSPath) : String :=
  "/ipfs/" ++ toString p.root ++ String.join (p.segs.map (fun s => "/" ++ s))

/-- Modelled from the spec: following one named link out of `c`. -/
def lookupLink (g : DAG) (c : Nat) (name : String) : Option Nat :=
  ((g.children c).find? (fun l => decide (l.1 = name))).map Prod.snd

/-- Modelled from the spec: the external Path Resolver's walk: follow each
segment in turn; a missing segment fails the whole resolution with
`NoSuchLink` naming the segment and the CID it was searched under. -/
def resolveSegs (g : DAG) (c : Nat) : List String → Except PinError Nat
  | [] => .ok c
  | s :: rest =>
      match lookupLink g c s with
      | some c2 => resolveSegs g c2 rest
      | none => .error (.noSuchLink s c)

/-- Modelled from the spec: `resolve(path) -> CID`. -/
def resolvePath (g : DAG) (p : IPFSPath) : Except PinError Nat :=
  resolveSegs g p.root p.segs

/-- Modelled from the spec: a scoped-lookup target: a bare CID or a path. -/
inductive Target where
  | cid (c : Nat)
  | path (p : IPFSPath)
deriving DecidableEq

/-- Modelled from the spec: the textual form of a target, used in the
`NotPinned` message. -/
def targetString : Target → String
  | .cid c => toString c
  | .path p => pathString p

/-- Modelled from the spec: resolving a target to a CID (bare CIDs are
already resolved). -/
def resolveTarget (g : DAG) : Target → Except PinError Nat
  | .cid c => .ok c
  | .path p => resolvePath g p

/-- Modelled from the spec: the known ancestor qualifying an indirect
match — present exactly when the target was a path, and then the path's
root. -/
def targetAncestor : Target → Option Nat
  | .cid _ => none
  | .path p => some p.root

/-- Modelled from the spec: scoped lookup of one target: resolve it,
classify the CID, and either render the entry (filter permitting) or fail
with `NotPinned` naming the full requested target. -/
def lookupTarget (store : List PinRecord) (g : DAG) (f : PinType)
    (t : Target) : Except PinError PinEntry :=
  match resolveTarget g t with
  | .error e => .error e
  | .ok c =>
      match classifyCid store g (targetAncestor t) c with
      | some cl =>
          if clMatches f cl then .ok (renderEntry c cl)
          else .error (.notPinned (targetString t))
      | none => .error (.notPinned (targetString t))

/-- Modelled from the spec: scoped lookup of a target list; a failing
target fails the whole query. -/
def lookupTargets (store : List PinRecord) (g : DAG) (f : PinType) :
    List Target → Except PinError (List PinEntry)
  | [] => .ok []
  | t :: ts =>
      match lookupTarget store g f t with
      | .error e => .error e
      | .ok e =>
          match lookupTargets store g f ts with
          | .error e2 => .error e2
          | .ok es => .ok (e :: es)

/-- Modelled from the spec: every record paired with its classification,
then every indirect CID (explicit records already excluded) classified
plain Indirect — the unscoped union before filtering. -/
def allClassified (store : List PinRecord) (g : DAG) :
    List (Nat × Classification) :=
  store.map (fun r => (r.cid, recordClass r)) ++
    (indirectCids store g).map (fun c => (c, Classification.indirect none))

/-- Modelled from the spec: the unscoped listing under a validated filter. -/
def unscopedEntries (store : List PinRecord) (g : DAG) (f : PinType) :
    List PinEntry :=
  ((allClassified store g).filter (fun p => clMatches f p.2)).map
    (fun p => renderEntry p.1 p.2)

/-- Modelled from the spec: the Pin Query Engine's public `list` operation
(absent from the repository, which contains only its conformance tests):
validate the filter first, then answer the unscoped listing or the scoped
lookups. -/
def pinLs (store : List PinRecord) (g : DAG) (targets : Option (List Target))
    (topt : TypeOpt) : Except PinError (List PinEntry) :=
  match parseTypeFilter topt with
  | .error e => .error e
  | .ok f =>
      match targets with
      | none => .ok (unscopedEntries store g f)
      | some ts => lookupTargets store g f ts

/-! Concrete fixtures mirroring the conformance suite's setup: a directory
(CID 4) holding a subdirectory "files" (CID 3) with two file leaves
(CIDs 1 and 2), pinned recursively; a standalone file (CID 5) pinned
recursively; a standalone file (CID 6) pinned directly. -/

def testChildren (n : Nat) : List (String × Nat) :=
  if n = 3 then [("ipfs.txt", 1), ("holmes.txt", 2)]
  else if n = 4 then [("files", 3)]
  else []

def testDAG : DAG where
  children := testChildren
  child_lt := by
    intro n p h
    unfold testChildren at h
    by_cases h3 : n = 3
    · subst h3
      simp at h
      rcases h with h | h <;> simp [h]
    · by_cases h4 : n = 4
      · subst h4
        simp [h3] at h
        simp [h]
      · simp [h3, h4] at h

def testStore : List PinRecord :=
  [⟨4, .recursive, none⟩, ⟨5, .recursive, none⟩, ⟨6, .direct, none⟩]

/-- A store in which CID 1 is both directly pinned and reachable from the
recursive root 4 (for the precedence claims). -/
def testStoreP : List PinRecord :=
  [⟨4, .recursive, none⟩, ⟨1, .direct, none⟩]

/-- A store with two recursive roots (4 and 3) both reaching CID 1 (for
the dedup claim). -/
def testStoreD : List PinRecord :=
  [⟨4, .recursive, none⟩, ⟨3, .recursive, none⟩]

/-- A store in which the directly pinned CID 6 carries a comment. -/
def testStoreC : List PinRecord :=
  [⟨4, .recursive, none⟩, ⟨6, .direct, some "hello world"⟩]

/-! General lemmas about the engine. -/

theorem mem_closureAux_lt (g : Nat → List (String × Nat))
    (hg : ∀ n p, p ∈ g n → p.2 < n) :
    ∀ fuel n c, c ∈ closureAux g fuel n → c < n := by
  intro fuel
  induction fuel with
  | zero => intro n c h; simp [closureAux] at h
  | succ f ih =>
      intro n c h
      simp only [closureAux, List.mem_dedup, List.mem_flatMap, List.mem_map,
        List.mem_cons] at h
      obtain ⟨d, ⟨p, hp, hpd⟩, hcd⟩ := h
      rcases hcd with rfl | hc
      · exact hpd ▸ hg n p hp
      · exact lt_trans (ih d c hc) (hpd ▸ hg n p hp)

theorem mem_closureList_lt (g : DAG) {n c : Nat} (h : c ∈ closureList g n) :
    c < n :=
  mem_closureAux_lt g.children g.child_lt n n c h

theorem clMatches_indirect_recordClass (r : PinRecord) :
    clMatches PinType.indirect (recordClass r) = false := by
  unfold recordClass
  cases r.mode <;> simp [clMatches]

theorem findRecord_ne_none_of_mem {store : List PinRecord} {r : PinRecord}
    (hr : r ∈ store) {c : Nat} (hc : r.cid = c) :
    findRecord store c ≠ none := by
  unfold findRecord
  cases hfind : store.find? (fun x => decide (x.cid = c ∧ x.mode = PinMode.recursive)) with
  | some _ => simp
  | none =>
      cases h2 : store.find? (fun x => decide (x.cid = c)) with
      | some _ => simp
      | none =>
          have := List.find?_eq_none.mp h2 r hr
          simp [hc] at this

theorem findRecord_mem_of_eq_some {store : List PinRecord} {c : Nat}
    {r : PinRecord} (h : findRecord store c = some r) :
    r ∈ store ∧ r.cid = c := by
  unfold findRecord at h
  cases hfind : store.find? (fun x => decide (x.cid = c ∧ x.mode = PinMode.recursive)) with
  | some r2 =>
      rw [hfind] at h
      cases h
      refine ⟨List.mem_of_find?_eq_some hfind, ?_⟩
      have := List.find?_some hfind
      simp at this
      exact this.1
  | none =>
      rw [hfind] at h
      refine ⟨List.mem_of_find?_eq_some h, ?_⟩
      have := List.find?_some h
      simpa using this

theorem mem_indirectCids {store : List PinRecord} {g : DAG} {c : Nat} :
    c ∈ indirectCids store g ↔
      (∃ root ∈ recursiveRoots store, c ∈ closureList g root) ∧
        findRecord store c = none := by
  unfold indirectCids
  simp [List.mem_filter, List.mem_dedup, List.mem_flatMap, Option.isNone_iff_eq_none]

theorem nodup_indirectCids (store : List PinRecord) (g : DAG) :
    (indirectCids store g).Nodup :=
  List.Nodup.filter _ (List.nodup_dedup _)

theorem mem_unscopedEntries {store : List PinRecord} {g : DAG} {f : PinType}
    {e : PinEntry} :
    e ∈ unscopedEntries store g f ↔
      (∃ r ∈ store, clMatches f (recordClass r) = true ∧
        e = renderEntry r.cid (recordClass r)) ∨
      (∃ c ∈ indirectCids store g,
        clMatches f (Classification.indirect none) = true ∧
        e = PinEntry.mk c "indirect" none) := by
  unfold unscopedEntries allClassified
  simp only [List.mem_map, List.mem_filter, List.mem_append]
  constructor
  · rintro ⟨p, ⟨hp | hp, hm⟩, rfl⟩
    · obtain ⟨r, hr, rfl⟩ := hp
      exact Or.inl ⟨r, hr, hm, rfl⟩
    · obtain ⟨c, hc, rfl⟩ := hp
      exact Or.inr ⟨c, hc, hm, rfl⟩
  · rintro (⟨r, hr, hm, rfl⟩ | ⟨c, hc, hm, rfl⟩)
    · exact ⟨(r.cid, recordClass r), ⟨Or.inl ⟨r, hr, rfl⟩, hm⟩, rfl⟩
    · exact ⟨(c, Classification.indirect none), ⟨Or.inr ⟨c, hc, rfl⟩, hm⟩, rfl⟩

theorem unscoped_indirect_eq (store : List PinRecord) (g : DAG) :
    unscopedEntries store g PinType.indirect =
      (indirectCids store g).map (fun c => PinEntry.mk c "indirect" none) := by
  unfold unscopedEntries allClassified
  rw [List.filter_append]
  have h1 : (store.map (fun r => (r.cid, recordClass r))).filter
      (fun p => clMatches PinType.indirect p.2) = [] := by
    rw [List.filter_eq_nil_iff]
    intro p hp
    obtain ⟨r, hr, rfl⟩ := List.mem_map.mp hp
    simp [clMatches_indirect_recordClass]
  have h2 : ((indirectCids store g).map
        (fun c => (c, Classification.indirect none))).filter
      (fun p => clMatches PinType.indirect p.2) =
      (indirectCids store g).map (fun c => (c, Classification.indirect none)) := by
    rw [List.filter_eq_self]
    intro p hp
    obtain ⟨c, hc, rfl⟩ := List.mem_map.mp hp
    simp [clMatches]
  rw [h1, h2, List.nil_append, List.map_map]
  rfl

theorem classStr_recordClass_ne_indirect (r : PinRecord) :
    classStr (recordClass r) ≠ "indirect" := by
  unfold recordClass
  cases r.mode <;> simp [classStr]

/-- C2: for every Recursive Pin Record R, the computed closure of R's root
never contains R's own CID, and no indirect-filtered unscoped listing ever
contains a recursive root's CID. -/
theorem closure_excludes_root
    (g : DAG) (store : List PinRecord) (r : PinRecord)
    (hr : r ∈ store) (_hmode : r.mode = PinMode.recursive) :
    r.cid ∉ closureList g r.cid ∧
      ∀ e ∈ unscopedEntries store g PinType.indirect, e.cid ≠ r.cid := by
  constructor
  · intro h
    exact lt_irrefl r.cid (mem_closureList_lt g h)
  · intro e he
    rw [unscoped_indirect_eq] at he
    obtain ⟨c, hc, rfl⟩ := List.mem_map.mp he
    intro hcid
    have h2 := (mem_indirectCids.mp hc).2
    exact findRecord_ne_none_of_mem hr hcid.symm h2

/-- C2 witness: the recursive root 4 of the test fixture. -/
theorem closure_excludes_root_witness :
    (4 : Nat) ∉ closureList testDAG 4 ∧
      ∀ e ∈ unscopedEntries testStore testDAG PinType.indirect, e.cid ≠ 4 :=
  closure_excludes_root testDAG testStore ⟨4, PinMode.recursive, none⟩
    (by decide) rfl

/-- C1: explicit pin precedence: a CID holding its own Direct or Recursive
record, even when reachable from a recursive root, is classified by an
unscoped listing per its explicit record, is never classified "indirect",
and never appears in the indirect-filtered listing. -/
theorem explicit_pin_precedence
    (store : List PinRecord) (g : DAG) (r : PinRecord) (hr : r ∈ store)
    (hnd : (store.map PinRecord.cid).Nodup)
    (root : Nat) (_hroot : root ∈ recursiveRoots store)
    (_hreach : r.cid ∈ closureList g root) :
    (∀ e ∈ unscopedEntries store g PinType.all, e.cid = r.cid →
        e.type = classStr (recordClass r)) ∧
    classStr (recordClass r) ≠ "indirect" ∧
    (∀ e ∈ unscopedEntries store g PinType.indirect, e.cid ≠ r.cid) ∧
    pinLs store g none TypeOpt.missing = .ok (unscopedEntries store g PinType.all) := by
  refine ⟨?_, classStr_recordClass_ne_indirect r, ?_, rfl⟩
  · intro e he hcid
    rcases mem_unscopedEntries.mp he with ⟨r2, hr2, _, rfl⟩ | ⟨c, hc, _, rfl⟩
    · have : r2 = r :=
        List.inj_on_of_nodup_map hnd hr2 hr (by simpa [renderEntry] using hcid)
      rw [this]
      rfl
    · exfalso
      have h2 := (mem_indirectCids.mp hc).2
      exact findRecord_ne_none_of_mem hr (by simpa using hcid.symm) h2
  · intro e he
    rw [unscoped_indirect_eq] at he
    obtain ⟨c, hc, rfl⟩ := List.mem_map.mp he
    intro hcid
    have h2 := (mem_indirectCids.mp hc).2
    exact findRecord_ne_none_of_mem hr hcid.symm h2

/-- C1 witness: CID 1 is directly pinned in `testStoreP` and reachable
from the recursive root 4. -/
theorem explicit_pin_precedence_witness :
    (∀ e ∈ unscopedEntries testStoreP testDAG PinType.all, e.cid = 1 →
        e.type = classStr (recordClass ⟨1, PinMode.direct, none⟩)) ∧
    classStr (recordClass ⟨1, PinMode.direct, none⟩) ≠ "indirect" ∧
    (∀ e ∈ unscopedEntries testStoreP testDAG PinType.indirect, e.cid ≠ 1) ∧
    pinLs testStoreP testDAG none TypeOpt.missing =
      .ok (unscopedEntries testStoreP testDAG PinType.all) :=
  explicit_pin_precedence testStoreP testDAG ⟨1, PinMode.direct, none⟩
    (by decide) (by decide) 4 (by decide) (by decide)

/-- C4: any type-filter value outside the four recognized strings —
including numbers and the string "__proto__" — makes `list` fail with
`InvalidTypeFilter`, uniformly in the store, graph and targets (so before
any store or graph access can matter). -/
theorem invalid_type_filter_rejected
    (store : List PinRecord) (g : DAG) (targets : Option (List Target))
    (v : TypeOpt)
    (hv : (∃ i, v = TypeOpt.num i) ∨
      (∃ s, v = TypeOpt.str s ∧ s ≠ "direct" ∧ s ≠ "recursive" ∧
        s ≠ "indirect" ∧ s ≠ "all")) :
    pinLs store g targets v = .error PinError.invalidTypeFilter := by
  rcases hv with ⟨i, rfl⟩ | ⟨s, rfl, h1, h2, h3, h4⟩
  · rfl
  · simp [pinLs, parseTypeFilter, h1, h2, h3, h4]

/-- C4 witness: the two scenarios of the suite, the number 6 and the
string "__proto__". -/
theorem invalid_type_filter_rejected_witness :
    pinLs testStore testDAG none (TypeOpt.num 6) =
      .error PinError.invalidTypeFilter ∧
    pinLs testStore testDAG (some [Target.cid 5]) (TypeOpt.str "__proto__") =
      .error PinError.invalidTypeFilter :=
  ⟨invalid_type_filter_rejected testStore testDAG none (TypeOpt.num 6)
      (Or.inl ⟨6, rfl⟩),
    invalid_type_filter_rejected testStore testDAG (some [Target.cid 5])
      (TypeOpt.str "__proto__")
      (Or.inr ⟨"__proto__", rfl, by decide, by decide, by decide, by decide⟩)⟩

/-- C5: a scoped single-path lookup whose resolved CID's classification
does not match the given filter fails with `NotPinned`, whose message is
exactly `path '<path>' is not pinned` for the full requested path, rather
than returning an empty result. -/
theorem scoped_filter_mismatch_fails
    (store : List PinRecord) (g : DAG) (p : IPFSPath) (c : Nat)
    (topt : TypeOpt) (f : PinType) (cl : Classification)
    (hparse : parseTypeFilter topt = .ok f)
    (hres : resolvePath g p = .ok c)
    (hcl : classifyCid store g (some p.root) c = some cl)
    (hmis : clMatches f cl = false) :
    pinLs store g (some [.path p]) topt = .error (.notPinned (pathString p)) ∧
    errorMessage (.notPinned (pathString p)) =
      "path '" ++ pathString p ++ "' is not pinned" := by
  refine ⟨?_, rfl⟩
  simp [pinLs, hparse, lookupTargets, lookupTarget, resolveTarget, hres,
    targetAncestor, hcl, hmis, targetString]

/-- C5 witness: the path /ipfs/4/files/ipfs.txt resolves to the indirectly
pinned CID 1, queried with filter "direct". -/
theorem scoped_filter_mismatch_fails_witness :
    pinLs testStore testDAG
        (some [.path ⟨4, ["files", "ipfs.txt"]⟩]) (TypeOpt.str "direct") =
      .error (.notPinned (pathString ⟨4, ["files", "ipfs.txt"]⟩)) ∧
    errorMessage (.notPinned (pathString ⟨4, ["files", "ipfs.txt"]⟩)) =
      "path '" ++ pathString ⟨4, ["files", "ipfs.txt"]⟩ ++ "' is not pinned" :=
  scoped_filter_mismatch_fails testStore testDAG ⟨4, ["files", "ipfs.txt"]⟩ 1
    (TypeOpt.str "direct") PinType.direct (Classification.indirect (some 4))
    (by decide) (by decide) (by decide) (by decide)

theorem resolveSegs_append_error (g : DAG) (s : String) (post : List String) :
    ∀ pre (root u : Nat), resolveSegs g root pre = .ok u →
      lookupLink g u s = none →
      resolveSegs g root (pre ++ s :: post) = .error (.noSuchLink s u) := by
  intro pre
  induction pre with
  | nil =>
      intro root u hok hmiss
      cases hok
      simp [resolveSegs, hmiss]
  | cons a rest ih =>
      intro root u hok hmiss
      unfold resolveSegs at hok
      cases hlk : lookupLink g root a with
      | some c2 =>
          rw [hlk] at hok
          simpa [resolveSegs, hlk] using ih c2 u hok hmiss
      | none => rw [hlk] at hok; cases hok

/-- C6: a scoped lookup of a path with a segment missing under its parent
node fails the whole query with `NoSuchLink`, whose message names exactly
the missing segment and the CID it was searched under. -/
theorem missing_link_fails
    (store : List PinRecord) (g : DAG) (root u : Nat)
    (pre : List String) (s : String) (post : List String)
    (topt : TypeOpt) (f : PinType)
    (hparse : parseTypeFilter topt = .ok f)
    (hpre : resolveSegs g root pre = .ok u)
    (hmiss : lookupLink g u s = none) :
    pinLs store g (some [.path ⟨root, pre ++ s :: post⟩]) topt =
      .error (.noSuchLink s u) ∧
    errorMessage (.noSuchLink s u) =
      "no link named \"" ++ s ++ "\" under " ++ toString u := by
  refine ⟨?_, rfl⟩
  have hres : resolvePath g ⟨root, pre ++ s :: post⟩ = .error (.noSuchLink s u) :=
    resolveSegs_append_error g s post pre root u hpre hmiss
  simp [pinLs, hparse, lookupTargets, lookupTarget, resolveTarget, hres]

/-- C6 witness: the suite's scenario `/ipfs/<D>/I-DONT-EXIST.txt` with D
the directory root 4. -/
theorem missing_link_fails_witness :
    pinLs testStore testDAG
        (some [.path ⟨4, ["I-DONT-EXIST.txt"]⟩]) (TypeOpt.str "direct") =
      .error (.noSuchLink "I-DONT-EXIST.txt" 4) ∧
    errorMessage (.noSuchLink "I-DONT-EXIST.txt" 4) =
      "no link named \"" ++ "I-DONT-EXIST.txt" ++ "\" under " ++ toString (4 : Nat) :=
  missing_link_fails testStore testDAG 4 4 [] "I-DONT-EXIST.txt" []
    (TypeOpt.str "direct") PinType.direct (by decide) (by decide) (by decide)

/-- C7: a scoped lookup of a path below a recursive root, whose resolved
CID is indirectly pinned, filtered to "indirect", returns exactly one
entry whose classification is the qualified string
`indirect through <root>` rather than plain "indirect". -/
theorem indirect_through_path
    (store : List PinRecord) (g : DAG) (p : IPFSPath) (c : Nat)
    (hres : resolvePath g p = .ok c)
    (hnorec : findRecord store c = none)
    (hind : isIndirect store g c = true) :
    pinLs store g (some [.path p]) (TypeOpt.str "indirect") =
      .ok [⟨c, "indirect through " ++ toString p.root, none⟩] := by
  have hcl : classifyCid store g (some p.root) c =
      some (Classification.indirect (some p.root)) := by
    simp [classifyCid, hnorec, hind]
  simp [pinLs, parseTypeFilter, lookupTargets, lookupTarget, resolveTarget,
    hres, targetAncestor, hcl, clMatches, renderEntry, classStr, classComment]

/-- C7 witness: the suite's scenario `/ipfs/<D>/files/ipfs.txt` with
filter "indirect": one entry, classified `indirect through 4`. -/
theorem indirect_through_path_witness :
    pinLs testStore testDAG
        (some [.path ⟨4, ["files", "ipfs.txt"]⟩]) (TypeOpt.str "indirect") =
      .ok [⟨1, "indirect through " ++ toString (4 : Nat), none⟩] :=
  indirect_through_path testStore testDAG ⟨4, ["files", "ipfs.txt"]⟩ 1
    (by decide) (by decide) (by decide)

theorem classComment_recordClass (r : PinRecord) :
    classComment (recordClass r) = r.comment := by
  unfold recordClass
  cases r.mode <;> rfl

/-- C9: a scoped lookup of an explicitly pinned CID returns its entry with
the record's comment carried in the optional comment field (so a pin
without a comment yields no comment), and every Indirect entry of an
unscoped listing carries no comment. -/
theorem comment_carry_through
    (store : List PinRecord) (g : DAG) (c : Nat) (r : PinRecord)
    (hfind : findRecord store c = some r) :
    pinLs store g (some [.cid c]) TypeOpt.missing =
      .ok [⟨c, classStr (recordClass r), r.comment⟩] ∧
    ∀ e ∈ unscopedEntries store g PinType.indirect, e.comment = none := by
  constructor
  · have hcl : classifyCid store g none c = some (recordClass r) := by
      simp [classifyCid, hfind]
    simp [pinLs, parseTypeFilter, lookupTargets, lookupTarget, resolveTarget,
      targetAncestor, hcl, clMatches, renderEntry, classComment_recordClass]
  · intro e he
    rw [unscoped_indirect_eq] at he
    obtain ⟨c2, _, rfl⟩ := List.mem_map.mp he
    rfl

/-- C9 witness: CID 6 pinned directly with comment "hello world" in
`testStoreC`. -/
theorem comment_carry_through_witness :
    pinLs testStoreC testDAG (some [.cid 6]) TypeOpt.missing =
      .ok [⟨6, classStr (recordClass ⟨6, PinMode.direct, some "hello world"⟩),
        some "hello world"⟩] ∧
    ∀ e ∈ unscopedEntries testStoreC testDAG PinType.indirect,
      e.comment = none :=
  comment_carry_through testStoreC testDAG 6
    ⟨6, PinMode.direct, some "hello world"⟩ (by decide)

/-- C10: a scoped lookup naming exactly one CID holding its own explicit
record, with no filter or a filter matching the record's mode, returns a
sequence of exactly one entry: the named CID classified per its record. -/
theorem scoped_explicit_single_entry
    (store : List PinRecord) (g : DAG) (c : Nat) (r : PinRecord)
    (topt : TypeOpt) (f : PinType)
    (hfind : findRecord store c = some r)
    (hparse : parseTypeFilter topt = .ok f)
    (hmatch : clMatches f (recordClass r) = true) :
    pinLs store g (some [.cid c]) topt =
      .ok [renderEntry c (recordClass r)] := by
  have hcl : classifyCid store g none c = some (recordClass r) := by
    simp [classifyCid, hfind]
  simp [pinLs, hparse, lookupTargets, lookupTarget, resolveTarget,
    targetAncestor, hcl, hmatch]

/-- C10 witness: the suite's scenario: listing the recursively pinned
CID 5 alone, both unfiltered and with filter "recursive", yields one
recursive entry. -/
theorem scoped_explicit_single_entry_witness :
    pinLs testStore testDAG (some [.cid 5]) TypeOpt.missing =
      .ok [renderEntry 5 (recordClass ⟨5, PinMode.recursive, none⟩)] ∧
    pinLs testStore testDAG (some [.cid 5]) (TypeOpt.str "recursive") =
      .ok [renderEntry 5 (recordClass ⟨5, PinMode.recursive, none⟩)] :=
  ⟨scoped_explicit_single_entry testStore testDAG 5
      ⟨5, PinMode.recursive, none⟩ TypeOpt.missing PinType.all
      (by decide) (by decide) (by decide),
    scoped_explicit_single_entry testStore testDAG 5
      ⟨5, PinMode.recursive, none⟩ (TypeOpt.str "recursive") PinType.recursive
      (by decide) (by decide) (by decide)⟩

theorem nodup_closureList (g : DAG) (n : Nat) : (closureList g n).Nodup := by
  unfold closureList
  cases n with
  | zero => exact List.nodup_nil
  | succ m => exact List.nodup_dedup _

/-- C8: a CID reachable from two distinct recursive roots appears exactly
once in the unscoped indirect listing, and the closure traversal itself
yields each reachable CID at most once even over shared substructure. -/
theorem indirect_dedup
    (store : List PinRecord) (g : DAG) (c r1 r2 : Nat)
    (h1 : r1 ∈ recursiveRoots store) (_h2 : r2 ∈ recursiveRoots store)
    (_hne : r1 ≠ r2)
    (hc1 : c ∈ closureList g r1) (_hc2 : c ∈ closureList g r2)
    (hnorec : findRecord store c = none) :
    ((unscopedEntries store g PinType.indirect).map PinEntry.cid).count c = 1 ∧
    (closureList g r1).Nodup ∧
    pinLs store g none (TypeOpt.str "indirect") =
      .ok (unscopedEntries store g PinType.indirect) := by
  refine ⟨?_, nodup_closureList g r1, ?_⟩
  · rw [unscoped_indirect_eq, List.map_map]
    have hcomp : (PinEntry.cid ∘ fun c => PinEntry.mk c "indirect" none) = id := rfl
    rw [hcomp, List.map_id]
    exact List.count_eq_one_of_mem (nodup_indirectCids store g)
      (mem_indirectCids.mpr ⟨⟨r1, h1, hc1⟩, hnorec⟩)
  · have hp : parseTypeFilter (TypeOpt.str "indirect") = .ok PinType.indirect := by
      decide
    simp [pinLs, hp]

/-- C8 witness: CID 1 is reachable both from the recursive root 4 (through
the shared node 3) and from the recursive root 3 itself in `testStoreD`. -/
theorem indirect_dedup_witness :
    ((unscopedEntries testStoreD testDAG PinType.indirect).map
        PinEntry.cid).count 1 = 1 ∧
    (closureList testDAG 4).Nodup ∧
    pinLs testStoreD testDAG none (TypeOpt.str "indirect") =
      .ok (unscopedEntries testStoreD testDAG PinType.indirect) :=
  indirect_dedup testStoreD testDAG 1 4 3 (by decide) (by decide) (by decide)
    (by decide) (by decide) (by decide)

theorem clMatches_partition (cl : Classification) :
    ((clMatches PinType.recursive cl && !clMatches PinType.direct cl) =
        clMatches PinType.recursive cl) ∧
    ((!clMatches PinType.recursive cl && !clMatches PinType.direct cl) =
        clMatches PinType.indirect cl) := by
  cases cl <;> simp [clMatches]

theorem allClassified_perm_filters (store : List PinRecord) (g : DAG) :
    (allClassified store g).Perm
      ((allClassified store g).filter (fun p => clMatches PinType.direct p.2) ++
        (allClassified store g).filter (fun p => clMatches PinType.recursive p.2) ++
        (allClassified store g).filter (fun p => clMatches PinType.indirect p.2)) := by
  have s1 := (List.filter_append_perm
    (fun p : Nat × Classification => clMatches PinType.direct p.2)
    (allClassified store g)).symm
  have s2 := (List.filter_append_perm
    (fun p : Nat × Classification => clMatches PinType.recursive p.2)
    ((allClassified store g).filter
      (fun p => !clMatches PinType.direct p.2))).symm
  rw [List.filter_filter, List.filter_filter] at s2
  have e1 : ((allClassified store g).filter
      (fun p => clMatches PinType.recursive p.2 && !clMatches PinType.direct p.2)) =
      (allClassified store g).filter (fun p => clMatches PinType.recursive p.2) :=
    List.filter_congr (fun p _ => (clMatches_partition p.2).1)
  have e2 : ((allClassified store g).filter
      (fun p => !clMatches PinType.recursive p.2 && !clMatches PinType.direct p.2)) =
      (allClassified store g).filter (fun p => clMatches PinType.indirect p.2) :=
    List.filter_congr (fun p _ => (clMatches_partition p.2).2)
  rw [e1, e2] at s2
  refine s1.trans ?_
  rw [List.append_assoc]
  exact List.Perm.append_left _ s2

theorem map_fst_allClassified (store : List PinRecord) (g : DAG) :
    (allClassified store g).map Prod.fst =
      store.map PinRecord.cid ++ indirectCids store g := by
  unfold allClassified
  rw [List.map_append, List.map_map, List.map_map]
  have h1 : (Prod.fst ∘ fun r : PinRecord => (r.cid, recordClass r)) =
      PinRecord.cid := funext fun r => rfl
  have h2 : (Prod.fst ∘ fun c : Nat => (c, Classification.indirect none)) =
      (fun c : Nat => c) := funext fun c => rfl
  rw [h1, h2, List.map_id']

theorem nodup_allClassified (store : List PinRecord) (g : DAG)
    (hnd : (store.map PinRecord.cid).Nodup) :
    ((allClassified store g).map Prod.fst).Nodup := by
  rw [map_fst_allClassified]
  refine List.Nodup.append hnd (nodup_indirectCids store g) ?_
  intro a ha hind
  obtain ⟨r, hr, rfl⟩ := List.mem_map.mp ha
  exact findRecord_ne_none_of_mem hr rfl (mem_indirectCids.mp hind).2

/-- C3: filter completeness: the unscoped "all" listing is exactly the
disjoint union of the "direct", "recursive" and "indirect" listings (a
permutation of their concatenation, with no duplicate entries), and a
`list` call with no type filter returns the same as one with filter
"all". -/
theorem filter_completeness
    (store : List PinRecord) (g : DAG)
    (hnd : (store.map PinRecord.cid).Nodup) :
    (unscopedEntries store g PinType.all).Perm
      (unscopedEntries store g PinType.direct ++
        unscopedEntries store g PinType.recursive ++
        unscopedEntries store g PinType.indirect) ∧
    (unscopedEntries store g PinType.all).Nodup ∧
    pinLs store g none TypeOpt.missing = pinLs store g none (TypeOpt.str "all") ∧
    pinLs store g none TypeOpt.missing =
      .ok (unscopedEntries store g PinType.all) := by
  have hall : unscopedEntries store g PinType.all =
      (allClassified store g).map (fun p => renderEntry p.1 p.2) := by
    unfold unscopedEntries
    rw [show (fun p : Nat × Classification => clMatches PinType.all p.2) =
      (fun _ => true) from rfl, List.filter_true]
  refine ⟨?_, ?_, ?_, rfl⟩
  · have := (allClassified_perm_filters store g).map
      (fun p : Nat × Classification => renderEntry p.1 p.2)
    rw [List.map_append, List.map_append] at this
    rw [hall]
    exact this
  · rw [hall]
    have h1 : ((allClassified store g).map
        (fun p => renderEntry p.1 p.2)).map PinEntry.cid =
        (allClassified store g).map Prod.fst := by
      rw [List.map_map]; rfl
    exact List.Nodup.of_map PinEntry.cid
      (h1 ▸ nodup_allClassified store g hnd)
  · have hp : parseTypeFilter (TypeOpt.str "all") = .ok PinType.all := by decide
    simp [pinLs, parseTypeFilter, hp]

/-- C3 witness: the test fixture's store and DAG. -/
theorem filter_completeness_witness :
    (unscopedEntries testStore testDAG PinType.all).Perm
      (unscopedEntries testStore testDAG PinType.direct ++
        unscopedEntries testStore testDAG PinType.recursive ++
        unscopedEntries testStore testDAG PinType.indirect) ∧
    (unscopedEntries testStore testDAG PinType.all).Nodup ∧
    pinLs testStore testDAG none TypeOpt.missing =
      pinLs testStore testDAG none (TypeOpt.str "all") ∧
    pinLs testStore testDAG none TypeOpt.missing =
      .ok (unscopedEntries testStore testDAG PinType.all) :=
  filter_completeness testStore testDAG (by decide)

end PinLs
